import Mathlib

/-!
Verification development for the trivia engine in `trivia_core.py`.

The Python functions are shallowly embedded as Lean functions.  External
library calls (`unidecode`, `num2words`, the regex substitution) are embedded
as executable Lean functions that mirror the library behaviour on the
character ranges the program exercises; a raised exception inside a
per-variant transformation is modelled as `Option.none`.  Python `set`
iteration order is unspecified, so the embedding fixes one dedup order; every
statement proved below is order independent (membership, counts, filters).
-/

namespace TriviaCore

/-! ## Basic string helpers (Python semantics, lists of characters) -/

/-- Characters removed by Python `str.strip()` with no argument
(ASCII whitespace: space, tab, newline, vertical tab, form feed,
carriage return). -/
def isPySpace (c : Char) : Bool :=
  c == ' ' || c == Char.ofNat 9 || c == Char.ofNat 10 ||
  c == Char.ofNat 11 || c == Char.ofNat 12 || c == Char.ofNat 13

/-- Remove leading and trailing characters satisfying `p` (both-ends strip). -/
def stripListWith (p : Char → Bool) (l : List Char) : List Char :=
  ((l.dropWhile p).reverse.dropWhile p).reverse

/-- Embeds the Python call `s.strip(' ')` (only space characters stripped). -/
def stripSpace (s : String) : String :=
  String.mk (stripListWith (fun c => c == ' ') s.toList)

/-- Embeds the Python call `s.strip()` (all whitespace stripped). -/
def stripWs (s : String) : String :=
  String.mk (stripListWith isPySpace s.toList)

/-- `isPreList n h` decides whether `n` is an initial segment of `h`. -/
def isPreList : List Char → List Char → Bool
  | [], _ => true
  | _ :: _, [] => false
  | a :: as, b :: bs => a == b && isPreList as bs

/-- `hasSeg n h` decides whether `n` occurs as a contiguous segment of `h`;
this embeds the Python substring test `n in h`. -/
def hasSeg (n : List Char) : List Char → Bool
  | [] => n.isEmpty
  | b :: t => isPreList n (b :: t) || hasSeg n t

/-- Embeds the Python substring operator `a in b`. -/
def strIn (a b : String) : Bool := hasSeg a.toList b.toList

/-- Embeds Python `x.startswith(p)`. -/
def strStarts (x p : String) : Bool := isPreList p.toList x.toList

/-- Embeds the Python slice `x[n:]` (drop the first `n` code points). -/
def strDropChars (x : String) (n : Nat) : String := String.mk (x.toList.drop n)

/-- Embeds the Python slice `x[:n]` (keep the first `n` code points). -/
def strTakeChars (x : String) (n : Nat) : String := String.mk (x.toList.take n)

/-- Embeds Python `x.replace(a, b)` for a one-character pattern `a`
(the only pattern shape `_answer_variants` uses). -/
def replaceChar (x : String) (a : Char) (b : String) : String :=
  String.mk (x.toList.flatMap fun ch => if ch == a then b.toList else [ch])

/-- Embeds Python `answer.lower()` (code-point-wise lowering; exact on the
ASCII range the matcher exercises). -/
def pyLower (s : String) : String := String.mk (s.toList.map Char.toLower)

/-! ## Embedding of the `unidecode` library call -/

/-- Embeds `unidecode.unidecode` per character: identity on ASCII, a table of
common Latin accented letters, and the empty transliteration for other
characters (the library default for unmapped code points). -/
def unidecodeChar (c : Char) : String :=
  if c.toNat < 128 then String.mk [c]
  else if c == 'á' || c == 'à' || c == 'â' || c == 'ä' || c == 'ã' || c == 'å' then "a"
  else if c == 'é' || c == 'è' || c == 'ê' || c == 'ë' then "e"
  else if c == 'í' || c == 'ì' || c == 'î' || c == 'ï' then "i"
  else if c == 'ó' || c == 'ò' || c == 'ô' || c == 'ö' || c == 'õ' then "o"
  else if c == 'ú' || c == 'ù' || c == 'û' || c == 'ü' then "u"
  else if c == 'ñ' then "n"
  else if c == 'ç' then "c"
  else if c == 'ß' then "ss"
  else if c == 'œ' then "oe"
  else if c == 'æ' then "ae"
  else ""

/-- Embeds `unidecode.unidecode` on a whole string. -/
def unidecodeStr (s : String) : String :=
  String.mk (s.toList.flatMap fun c => (unidecodeChar c).toList)

/-! ## Embedding of `num2words` and the numeral regex substitution -/

def onesWord : Nat → String
  | 0 => "zero" | 1 => "one" | 2 => "two" | 3 => "three" | 4 => "four"
  | 5 => "five" | 6 => "six" | 7 => "seven" | 8 => "eight" | 9 => "nine"
  | 10 => "ten" | 11 => "eleven" | 12 => "twelve" | 13 => "thirteen"
  | 14 => "fourteen" | 15 => "fifteen" | 16 => "sixteen" | 17 => "seventeen"
  | 18 => "eighteen" | 19 => "nineteen"
  | _ => ""

def tensWord : Nat → String
  | 2 => "twenty" | 3 => "thirty" | 4 => "forty" | 5 => "fifty"
  | 6 => "sixty" | 7 => "seventy" | 8 => "eighty" | 9 => "ninety"
  | _ => ""

def twoDigitWord (n : Nat) : String :=
  if n < 20 then onesWord n
  else tensWord (n / 10) ++ (if n % 10 == 0 then "" else "-" ++ onesWord (n % 10))

def threeDigitWord (n : Nat) : String :=
  if n < 100 then twoDigitWord n
  else onesWord (n / 100) ++ " hundred" ++
    (if n % 100 == 0 then "" else " and " ++ twoDigitWord (n % 100))

/-- Base-1000 digits of `n`, least significant first, with explicit fuel so
the definition is structural and kernel reducible. -/
def natGroupsAux : Nat → Nat → List Nat
  | 0, _ => []
  | _ + 1, 0 => []
  | fuel + 1, n => (n % 1000) :: natGroupsAux fuel (n / 1000)

def natGroups (n : Nat) : List Nat := natGroupsAux (n + 1) n

def scaleName : Nat → String
  | 1 => " thousand" | 2 => " million" | 3 => " billion" | 4 => " trillion"
  | 5 => " quadrillion" | 6 => " quintillion" | 7 => " sextillion"
  | 8 => " septillion" | 9 => " octillion" | 10 => " nonillion"
  | _ => ""

/-- Embeds `num2words(n)` (English cardinal) for natural numbers:
groups of three digits joined with commas, with the library "and" before a
final sub-hundred group. -/
def num2wordsNat (n : Nat) : String :=
  if n == 0 then "zero"
  else
    let parts := ((natGroups n).enum.filterMap fun p =>
      if p.2 == 0 then Option.none
      else some (threeDigitWord p.2 ++ scaleName p.1)).reverse
    match parts.dropLast, parts.getLast? with
    | [], Option.some last => last
    | init, Option.some last =>
        String.intercalate ", " init ++
          (if n % 1000 != 0 && n % 1000 < 100 then " and " else ", ") ++ last
    | _, Option.none => "zero"

def digitsToNat (ds : List Char) : Nat :=
  ds.foldl (fun a c => a * 10 + (c.toNat - 48)) 0

def dropTrailingZeros (ds : List Char) : List Char :=
  (ds.reverse.dropWhile (fun c => c == '0')).reverse

/-- Embeds `num2words(token)` as invoked by the regex substitution in stage 2
of `_answer_variants`.  The library converts the matched string through
`float()`: a token containing a comma raises `ValueError` (modelled as
`Option.none`); an integer token becomes cardinal words; a decimal token
becomes the integer part followed by "point" and the fractional digits
(trailing zeros dropped, as the float conversion drops them). -/
def num2wordsTok (ints : List Char) (sep : Option Char) (fracs : List Char) :
    Option String :=
  match sep with
  | Option.none => some (num2wordsNat (digitsToNat ints))
  | Option.some c =>
    if c == ',' then Option.none
    else
      let fs := dropTrailingZeros fracs
      if fs.isEmpty then some (num2wordsNat (digitsToNat ints))
      else some (num2wordsNat (digitsToNat ints) ++ " point " ++
        String.intercalate " " (fs.map fun d => onesWord (d.toNat - 48)))

/-- Scanner state for the regex `[0-9]+(?:[\.,][0-9]+)?` used in stage 2. -/
inductive NumSt
  | idle
  | ints (ds : List Char)
  | dsep (ds : List Char) (c : Char)
  | dfrac (ds : List Char) (c : Char) (fs : List Char)

/-- One scanner step: consume `ch`, emit output characters, move state.
`Option.none` models the `num2words` exception aborting the whole
substitution. -/
def numStep (st : NumSt) (ch : Char) : Option (List Char × NumSt) :=
  match st with
  | NumSt.idle =>
      if ch.isDigit then some ([], NumSt.ints [ch]) else some ([ch], NumSt.idle)
  | NumSt.ints ds =>
      if ch.isDigit then some ([], NumSt.ints (ds ++ [ch]))
      else if ch == '.' || ch == ',' then some ([], NumSt.dsep ds ch)
      else (num2wordsTok ds Option.none []).map fun w => (w.toList ++ [ch], NumSt.idle)
  | NumSt.dsep ds c =>
      if ch.isDigit then some ([], NumSt.dfrac ds c [ch])
      else (num2wordsTok ds Option.none []).map fun w => (w.toList ++ [c, ch], NumSt.idle)
  | NumSt.dfrac ds c fs =>
      if ch.isDigit then some ([], NumSt.dfrac ds c (fs ++ [ch]))
      else (num2wordsTok ds (some c) fs).map fun w => (w.toList ++ [ch], NumSt.idle)

/-- Flush the scanner state at end of input. -/
def numFlush : NumSt → Option (List Char)
  | NumSt.idle => some []
  | NumSt.ints ds => (num2wordsTok ds Option.none []).map String.toList
  | NumSt.dsep ds c => (num2wordsTok ds Option.none []).map fun w => w.toList ++ [c]
  | NumSt.dfrac ds c fs => (num2wordsTok ds (some c) fs).map String.toList

def numSubGo (st : NumSt) : List Char → Option (List Char)
  | [] => numFlush st
  | ch :: rest =>
    match numStep st ch with
    | Option.none => Option.none
    | Option.some (out, st2) => (numSubGo st2 rest).map fun t => out ++ t

/-- Embeds `re.sub(r'[0-9]+(?:[\.,][0-9]+)?', lambda y: num2words(y.group(0)), x)`;
`Option.none` models an exception raised by `num2words` on some match. -/
def numSub (s : String) : Option String :=
  (numSubGo NumSt.idle s.toList).map String.mk

/-! ## The six variant-generation stages of `_answer_variants`

Each stage is a fallible per-variant transformation
`String → Option (List String)`; `Option.none` models a raised exception
(the source wraps each application in try/except). -/

/-- Stage 1: add the ASCII transliteration when it differs from the variant. -/
def filter_unidecode : String → Option (List String) :=
  fun x => some (if unidecodeStr x != x then [unidecodeStr x] else [])

/-- Stage 2: replace every numeric substring by its spoken words. -/
def filter_numwords : String → Option (List String) :=
  fun x => (numSub x).map fun y => [y]

/-- Stage 3: expand the symbol pairs (ampersand to "and", percent sign to
"percent") when the symbol occurs. -/
def filter_symbols : String → Option (List String) :=
  fun x => some ([('&', "and"), ('%', "percent")].filterMap fun ab =>
    if x.toList.contains ab.1 then some (replaceChar x ab.1 ab.2) else Option.none)

/-- Stage 4: strip a leading article "a ", "an " or "the ". -/
def filter_articles : String → Option (List String) :=
  fun x => some (["a ", "an ", "the "].filterMap fun a =>
    if strStarts x a then some (strDropChars x a.length) else Option.none)

/-- Stage 5: remove every space character. -/
def filter_nospace : String → Option (List String) :=
  fun x => some [String.mk (x.toList.filter fun ch => !(ch == ' '))]

/-- The punctuation characters removed by stage 6 (apostrophe, parentheses,
period, comma, double quote, hyphen). -/
def punctChars : List Char :=
  [Char.ofNat 39, '(', ')', '.', ',', Char.ofNat 34, '-']

/-- Stage 6: remove the punctuation characters. -/
def filter_nopunct : String → Option (List String) :=
  fun x => some [String.mk (x.toList.filter fun ch => !(punctChars.contains ch))]

/-- The ordered stage list of `_answer_variants`. -/
def answer_filters : List (String → Option (List String)) :=
  [filter_unidecode, filter_numwords, filter_symbols,
   filter_articles, filter_nospace, filter_nopunct]

/-! ## The accumulation loop of `_answer_variants`

The Python inner loop iterates over the list object bound at stage entry (a
snapshot) while reassigning `possible_answers`; a raised exception skips that
one reassignment.  `list(set(...))` is embedded as `List.dedup` (set order is
unspecified in Python; only membership matters to every property below). -/

/-- One inner-loop iteration: apply the stage to one snapshot variant and
merge the results into the accumulator, skipping on exception. -/
def apply_filter_once (f : String → Option (List String)) (acc : List String)
    (pa : String) : List String :=
  match f pa with
  | Option.none => acc
  | Option.some ys => (acc ++ ys).dedup

/-- One full stage: fold the stage over the snapshot of the accumulator taken
at stage entry (the accumulator itself). -/
def run_stage (f : String → Option (List String)) (acc : List String) : List String :=
  acc.foldl (apply_filter_once f) acc

/-- The `_answer_variants` loop over an arbitrary stage list. -/
def answer_variants_gen (fs : List (String → Option (List String)))
    (answer : String) : List String :=
  fs.foldl (fun acc f => run_stage f acc) [pyLower answer]

/-- Embeds `TriviaCore._answer_variants`. -/
def answer_variants (answer : String) : List String :=
  answer_variants_gen answer_filters answer

/-- The variant set after the first `k` of the six stages. -/
def variants_after (answer : String) (k : Nat) : List String :=
  answer_variants_gen (answer_filters.take k) answer

/-! ## The matcher `_do_check_answer` -/

/-- Embeds `TriviaCore._do_check_answer`: for every pair of a canonical-answer
variant and a given-answer variant, compare the space-stripped length of the
given variant against `min(match_character_count, len(canonical variant))`
and test the whitespace-stripped given variant for substring containment. -/
def do_check_answer (answer correct_answer : String)
    (match_character_count : Int) : Bool :=
  (answer_variants correct_answer).any fun correct_answer_variation =>
    (answer_variants answer).any fun given_answer_variation =>
      (decide (((stripSpace given_answer_variation).length : Int) ≥
        min match_character_count (correct_answer_variation.length : Int))) &&
      strIn (stripWs given_answer_variation) correct_answer_variation

/-- Modelled from the spec (section 4.2): the pair condition as the spec words
it, with a single `trim` (ordinary whitespace trimming) used both for the
length floor and for the substring test. -/
def matches_spec (answer correct_answer : String) (m : Int) : Bool :=
  (answer_variants correct_answer).any fun cv =>
    (answer_variants answer).any fun sv =>
      (decide (((stripWs sv).length : Int) ≥ min m (cv.length : Int))) &&
      strIn (stripWs sv) cv

/-! ## Monotonicity of the accumulation loop -/

theorem mem_apply_filter_once {f : String → Option (List String)} {acc : List String}
    {pa a : String} (h : a ∈ acc) : a ∈ apply_filter_once f acc pa := by
  unfold apply_filter_once
  cases hf : f pa with
  | none => exact h
  | some ys => rw [List.mem_dedup]; exact List.mem_append_left _ h

theorem mem_foldl_filter (f : String → Option (List String)) (snapshot : List String)
    {acc : List String} {a : String} (h : a ∈ acc) :
    a ∈ snapshot.foldl (apply_filter_once f) acc := by
  induction snapshot generalizing acc with
  | nil => exact h
  | cons b t ih => exact ih (mem_apply_filter_once h)

theorem mem_run_stage {f : String → Option (List String)} {acc : List String}
    {a : String} (h : a ∈ acc) : a ∈ run_stage f acc :=
  mem_foldl_filter f acc h

theorem mem_stages_foldl (fs : List (String → Option (List String)))
    {acc : List String} {a : String} (h : a ∈ acc) :
    a ∈ fs.foldl (fun acc f => run_stage f acc) acc := by
  induction fs generalizing acc with
  | nil => exact h
  | cons f t ih => exact ih (mem_run_stage h)

theorem pyLower_mem_gen (fs : List (String → Option (List String))) (a : String) :
    pyLower a ∈ answer_variants_gen fs a :=
  mem_stages_foldl fs (List.mem_singleton_self _)

theorem filter_output_mem (f : String → Option (List String)) (snapshot : List String) :
    ∀ (acc : List String) (pa : String) (ys : List String) (y : String),
      pa ∈ snapshot → f pa = some ys → y ∈ ys →
      y ∈ snapshot.foldl (apply_filter_once f) acc := by
  induction snapshot with
  | nil => intro acc pa ys y hpa _ _; exact absurd hpa (List.not_mem_nil pa)
  | cons b t ih =>
    intro acc pa ys y hpa hf hy
    rw [List.foldl_cons]
    rcases List.mem_cons.mp hpa with hb | ht
    · subst hb
      have hmem : y ∈ apply_filter_once f acc pa := by
        unfold apply_filter_once
        rw [hf, List.mem_dedup]
        exact List.mem_append_right _ hy
      exact mem_foldl_filter f t hmem
    · exact ih _ pa ys y ht hf hy

theorem answer_variants_gen_append (fs gs : List (String → Option (List String)))
    (a : String) :
    answer_variants_gen (fs ++ gs) a
      = gs.foldl (fun acc f => run_stage f acc) (answer_variants_gen fs a) := by
  unfold answer_variants_gen
  exact List.foldl_append _ _ _ _

theorem variants_after_mono (a : String) (k : Nat) :
    ∀ v ∈ variants_after a k, v ∈ variants_after a (k + 1) := by
  intro v hv
  unfold variants_after at hv ⊢
  rw [List.take_succ, answer_variants_gen_append]
  cases hg : answer_filters[k]? with
  | none => simpa using hv
  | some f => simpa using mem_run_stage hv

theorem variants_after_le (a : String) :
    ∀ j k, k ≤ j → ∀ v ∈ variants_after a k, v ∈ variants_after a j := by
  intro j
  induction j with
  | zero =>
    intro k hk v hv
    have : k = 0 := Nat.le_zero.mp hk
    simpa [this] using hv
  | succ j ih =>
    intro k hk v hv
    rcases Nat.lt_or_ge k (j + 1) with h | h
    · exact variants_after_mono a j v (ih k (Nat.lt_succ_iff.mp h) v hv)
    · have : k = j + 1 := Nat.le_antisymm hk h
      simpa [this] using hv

theorem variants_after_six (a : String) : variants_after a 6 = answer_variants a := rfl

theorem variants_after_of_six_le (a : String) (k : Nat) (h : 6 ≤ k) :
    variants_after a k = answer_variants a := by
  unfold variants_after answer_variants
  rw [List.take_of_length_le (by simpa [answer_filters] using h)]

/-! ## Substring and stripping lemmas -/

theorem isPreList_iff (n : List Char) : ∀ h : List Char, isPreList n h = true ↔ n <+: h := by
  induction n with
  | nil => intro h; simp [isPreList]
  | cons a as ih =>
    intro h
    cases h with
    | nil => simp [isPreList]
    | cons b bs =>
      simp only [isPreList, Bool.and_eq_true, beq_iff_eq, ih, List.cons_prefix_cons]

theorem hasSeg_iff (n : List Char) (h : List Char) : hasSeg n h = true ↔ n <:+: h := by
  induction h with
  | nil => simp [hasSeg, List.isEmpty_iff]
  | cons b bs ih =>
    simp only [hasSeg, Bool.or_eq_true, isPreList_iff, ih, List.infix_cons_iff]

theorem strIn_iff (a b : String) : strIn a b = true ↔ a.toList <:+: b.toList :=
  hasSeg_iff _ _

theorem dropWhile_eq_self_of (p : Char → Bool) (l : List Char)
    (h : ∀ c ∈ l, p c = false) : l.dropWhile p = l := by
  cases l with
  | nil => rfl
  | cons a t => rw [List.dropWhile_cons, h a (List.mem_cons_self a t)]; simp

theorem stripListWith_eq_self (p : Char → Bool) (l : List Char)
    (h : ∀ c ∈ l, p c = false) : stripListWith p l = l := by
  unfold stripListWith
  rw [dropWhile_eq_self_of p l h,
    dropWhile_eq_self_of p l.reverse (fun c hc => h c (List.mem_reverse.mp hc)),
    List.reverse_reverse]

theorem stripListWith_infix (p : Char → Bool) (l : List Char) :
    stripListWith p l <:+: l := by
  unfold stripListWith
  have h1 : l.dropWhile p <:+ l := List.dropWhile_suffix p
  have h2 : (l.dropWhile p).reverse.dropWhile p <:+ (l.dropWhile p).reverse :=
    List.dropWhile_suffix p
  have h3 : ((l.dropWhile p).reverse.dropWhile p).reverse <+: l.dropWhile p := by
    have h4 := List.reverse_prefix.mpr h2
    rwa [List.reverse_reverse] at h4
  exact h3.isInfix.trans h1.isInfix

theorem stripSpace_mk_filter (l : List Char) :
    stripSpace (String.mk (l.filter fun ch => !(ch == ' ')))
      = String.mk (l.filter fun ch => !(ch == ' ')) := by
  unfold stripSpace
  have h : ∀ c ∈ l.filter fun ch => !(ch == ' '), (c == ' ') = false := by
    intro c hc
    have := List.of_mem_filter hc
    simpa using this
  exact congrArg String.mk (stripListWith_eq_self _ _ h)

theorem strIn_stripWs_self (t : String) : strIn (stripWs t) t = true := by
  rw [strIn_iff]
  exact stripListWith_infix isPySpace t.toList

/-! ## Exception skipping (totalization) -/

/-- Turn a fallible transformation into a total one that contributes no
variants on failure (the skip semantics of the try/except in the source). -/
def totalize (f : String → Option (List String)) : String → Option (List String) :=
  fun x => some ((f x).getD [])

theorem nodup_apply_filter_once (f : String → Option (List String))
    {acc : List String} (pa : String) (h : acc.Nodup) :
    (apply_filter_once f acc pa).Nodup := by
  unfold apply_filter_once
  cases f pa with
  | none => exact h
  | some ys => exact List.nodup_dedup _

theorem nodup_foldl_filter (f : String → Option (List String))
    (snapshot : List String) : ∀ acc : List String, acc.Nodup →
    (snapshot.foldl (apply_filter_once f) acc).Nodup := by
  induction snapshot with
  | nil => intro acc h; exact h
  | cons b t ih =>
    intro acc h
    rw [List.foldl_cons]
    exact ih _ (nodup_apply_filter_once f b h)

theorem nodup_run_stage (f : String → Option (List String)) {acc : List String}
    (h : acc.Nodup) : (run_stage f acc).Nodup :=
  nodup_foldl_filter f acc acc h

theorem apply_filter_once_totalize (f : String → Option (List String))
    {acc : List String} (pa : String) (h : acc.Nodup) :
    apply_filter_once (totalize f) acc pa = apply_filter_once f acc pa := by
  unfold apply_filter_once totalize
  cases hf : f pa with
  | none => simp [hf, List.dedup_eq_self.mpr h]
  | some ys => simp [hf]

theorem foldl_filter_totalize (f : String → Option (List String))
    (snapshot : List String) : ∀ acc : List String, acc.Nodup →
    snapshot.foldl (apply_filter_once (totalize f)) acc
      = snapshot.foldl (apply_filter_once f) acc := by
  induction snapshot with
  | nil => intro acc _; rfl
  | cons b t ih =>
    intro acc h
    rw [List.foldl_cons, List.foldl_cons, apply_filter_once_totalize f b h]
    exact ih _ (nodup_apply_filter_once f b h)

theorem run_stage_totalize (f : String → Option (List String)) {acc : List String}
    (h : acc.Nodup) : run_stage (totalize f) acc = run_stage f acc := by
  unfold run_stage
  rw [foldl_filter_totalize f acc acc h]

theorem stages_totalize (fs : List (String → Option (List String))) :
    ∀ acc : List String, acc.Nodup →
    (fs.map totalize).foldl (fun acc f => run_stage f acc) acc
      = fs.foldl (fun acc f => run_stage f acc) acc := by
  induction fs with
  | nil => intro acc _; rfl
  | cons f t ih =>
    intro acc h
    rw [List.map_cons, List.foldl_cons, List.foldl_cons, run_stage_totalize f h]
    exact ih _ (nodup_run_stage f h)

/-! ## Membership of the space-free variant (used for the self-match) -/

theorem answer_variants_decomp (s : String) :
    answer_variants s =
      run_stage filter_nopunct (run_stage filter_nospace
        (answer_variants_gen
          [filter_unidecode, filter_numwords, filter_symbols, filter_articles] s)) := rfl

theorem nospace_mem_answer_variants (s : String) :
    String.mk ((pyLower s).toList.filter fun ch => !(ch == ' ')) ∈ answer_variants s := by
  rw [answer_variants_decomp]
  apply mem_run_stage
  unfold run_stage
  exact filter_output_mem filter_nospace _ _ (pyLower s) _ _
    (pyLower_mem_gen _ s) rfl (List.mem_singleton_self _)

/-! ## Claims about the normalizer and the matcher -/

/-- C1 (counterexample): the claim states one single trim is used both for the
length floor and for the substring test.  The code strips only spaces for the
length check but all whitespace for the containment check, and the two
disagree on a submission padded with tabs: the code accepts
("a" plus three tabs, "abcde", 4) while the claimed condition rejects it. -/
theorem C1_counterexample :
    do_check_answer "a\t\t\t" "abcde" 4 = true ∧
    matches_spec "a\t\t\t" "abcde" 4 = false := by decide

/-- C1 (amended): `do_check_answer s c m` is true iff some canonical variant
`cv` and submitted variant `sv` satisfy
`length(strip-spaces sv) >= min(m, length cv)` and
`strip-whitespace sv` is a substring of `cv` — the two trims differ exactly as
in the source (`strip(' ')` for the length floor, `strip()` for containment). -/
theorem C1_matcher_characterization (s c : String) (m : Int) :
    do_check_answer s c m = true ↔
      ∃ cv ∈ answer_variants c, ∃ sv ∈ answer_variants s,
        ((stripSpace sv).length : Int) ≥ min m (cv.length : Int) ∧
        (stripWs sv).toList <:+: cv.toList := by
  unfold do_check_answer
  simp only [List.any_eq_true, Bool.and_eq_true, decide_eq_true_eq, strIn_iff]

theorem C1_witness :
    do_check_answer "the cat" "cat" 3 = true ↔
      ∃ cv ∈ answer_variants "cat", ∃ sv ∈ answer_variants "the cat",
        ((stripSpace sv).length : Int) ≥ min 3 (cv.length : Int) ∧
        (stripWs sv).toList <:+: cv.toList :=
  C1_matcher_characterization "the cat" "cat" 3

/-- C2: the variant set always contains the lowercased input, and generation
is cumulative: every stage only adds to the set built so far, and every
intermediate variant (starting with the lowercased input) is still present in
the final result. -/
theorem C2_variants_cumulative (a : String) :
    pyLower a ∈ answer_variants a ∧
    (∀ k, ∀ v ∈ variants_after a k, v ∈ variants_after a (k + 1)) ∧
    (∀ k, ∀ v ∈ variants_after a k, v ∈ answer_variants a) := by
  refine ⟨pyLower_mem_gen _ _, variants_after_mono a, ?_⟩
  intro k v hv
  rcases Nat.le_total k 6 with h | h
  · have := variants_after_le a 6 k h v hv
    rwa [variants_after_six] at this
  · rw [← variants_after_of_six_le a k h]
    exact hv

theorem C2_witness :
    pyLower "The Cat" ∈ answer_variants "The Cat" ∧
    "the cat" ∈ variants_after "The Cat" 1 ∧
    "the cat" ∈ answer_variants "The Cat" := by
  refine ⟨(C2_variants_cumulative "The Cat").1, ?_, ?_⟩
  · exact (C2_variants_cumulative "The Cat").2.1 0 "the cat" (by decide)
  · exact (C2_variants_cumulative "The Cat").2.2 0 "the cat" (by decide)

/-- C8: a string always matches itself once `minMatchChars` is at most its
length (the space-free lowercased variant of `s` is a variant on both sides;
its space-stripped length meets the capped floor and its whitespace-stripped
form is contained in itself). -/
theorem C8_self_match (s : String) (m : Int) (_hne : s ≠ "")
    (_hm : m ≤ (s.length : Int)) : do_check_answer s s m = true := by
  have ht := nospace_mem_answer_variants s
  unfold do_check_answer
  rw [List.any_eq_true]
  refine ⟨_, ht, ?_⟩
  rw [List.any_eq_true]
  refine ⟨_, ht, ?_⟩
  rw [Bool.and_eq_true]
  refine ⟨?_, strIn_stripWs_self _⟩
  rw [stripSpace_mk_filter]
  exact decide_eq_true (min_le_right _ _)

theorem C8_witness :
    "abc" ≠ "" ∧ (3 : Int) ≤ ("abc".length : Int) ∧
    do_check_answer "abc" "abc" 3 = true :=
  ⟨by decide, by decide, C8_self_match "abc" 3 (by decide) (by decide)⟩

/-- C9: a per-variant transformation failure (modelled as `Option.none`) is
caught and skipped: running any fallible stage list is identical to running
its totalized version in which a failing application simply contributes no
variants, and the lowercased input is always in the returned set — so the
normalizer always returns a variant set and never aborts the match. -/
theorem C9_failures_skipped (fs : List (String → Option (List String)))
    (a : String) :
    answer_variants_gen fs a = answer_variants_gen (fs.map totalize) a ∧
    pyLower a ∈ answer_variants_gen fs a := by
  refine ⟨?_, pyLower_mem_gen fs a⟩
  unfold answer_variants_gen
  exact (stages_totalize fs [pyLower a] (List.nodup_singleton _)).symm

/-- A small fallible stage list (first stage always raises) used to
instantiate the exception-skipping theorem. -/
def demoFilters : List (String → Option (List String)) :=
  [fun _ => Option.none, fun x => some [x ++ x]]

theorem C9_witness :
    answer_variants_gen demoFilters "Ab"
        = answer_variants_gen (demoFilters.map totalize) "Ab" ∧
    pyLower "Ab" ∈ answer_variants_gen demoFilters "Ab" :=
  C9_failures_skipped demoFilters "Ab"

/-- C10: the matcher is monotone in the length floor: lowering
`minMatchChars` can only accept more attempts. -/
theorem C10_matches_monotone (s c : String) (m mp : Int) (hle : mp ≤ m)
    (h : do_check_answer s c m = true) : do_check_answer s c mp = true := by
  unfold do_check_answer at h ⊢
  rw [List.any_eq_true] at h ⊢
  obtain ⟨cv, hcv, h2⟩ := h
  refine ⟨cv, hcv, ?_⟩
  rw [List.any_eq_true] at h2 ⊢
  obtain ⟨sv, hsv, h3⟩ := h2
  refine ⟨sv, hsv, ?_⟩
  rw [Bool.and_eq_true] at h3 ⊢
  refine ⟨?_, h3.2⟩
  have hlen := of_decide_eq_true h3.1
  exact decide_eq_true (le_trans (min_le_min hle (le_refl _)) hlen)

theorem C10_witness :
    (2 : Int) ≤ 3 ∧ do_check_answer "abc" "abc" 3 = true ∧
    do_check_answer "abc" "abc" 2 = true :=
  ⟨by decide, by decide, C10_matches_monotone "abc" "abc" 3 2 (by decide) (by decide)⟩

/-! ## The uptime command formatting (`_command_uptime`)

`_command_uptime` formats `str(datetime.timedelta(seconds=elapsed))` and pads
it on the left with zeros to width 8.  CPython renders a timedelta as
`H:MM:SS` (hours unpadded) and, from one day up, prefixes `D day, ` or
`D days, `. -/

def digitCharN (n : Nat) : Char := Char.ofNat (48 + n)

/-- Decimal digits of `n`, with explicit fuel so the definition is structural
and kernel reducible (fuel `n + 1` always suffices). -/
def natReprAux : Nat → Nat → List Char
  | 0, _ => []
  | fuel + 1, n =>
    if n < 10 then [digitCharN n]
    else natReprAux fuel (n / 10) ++ [digitCharN (n % 10)]

/-- Embeds Python `str(n)` for a natural number. -/
def natReprL (n : Nat) : List Char := natReprAux (n + 1) n

/-- Embeds the `%02d` format: pad to two digits with a leading zero. -/
def pad2L (n : Nat) : List Char := if n < 10 then '0' :: natReprL n else natReprL n

/-- Embeds `str(datetime.timedelta(seconds=s))` for a non-negative number of
seconds: `H:MM:SS` within one day, prefixed by the day count beyond. -/
def timedeltaL (s : Nat) : List Char :=
  let rem := s % 86400
  let hms := natReprL (rem / 60 / 60) ++ ':' :: (pad2L (rem / 60 % 60) ++ ':' :: pad2L (rem % 60))
  if s / 86400 == 0 then hms
  else natReprL (s / 86400) ++
    (if s / 86400 == 1 then " day, ".toList else " days, ".toList) ++ hms

def timedeltaStr (s : Nat) : String := String.mk (timedeltaL s)

/-- Embeds the format spec `0>8`: right align in width 8, fill with zeros. -/
def padZeroLeft8 (str : String) : String :=
  String.mk (List.replicate (8 - str.length) '0' ++ str.toList)

/-- Embeds the reply text of `_command_uptime` as a function of the elapsed
whole seconds since startup. -/
def uptimeReply (elapsed : Nat) : String := padZeroLeft8 (timedeltaStr elapsed)

/-- Modelled from the spec: elapsed wall time as zero-padded `HH:MM:SS` with
hours unbounded (hours zero-padded to at least two digits, no format change
however large the hour count grows). -/
def uptimeSpecL (s : Nat) : List Char :=
  pad2L (s / 3600) ++ ':' :: (pad2L (s / 60 % 60) ++ ':' :: pad2L (s % 60))

def uptimeSpecFormat (s : Nat) : String := String.mk (uptimeSpecL s)

theorem natReprAux_small (fuel n : Nat) (hf : 0 < fuel) (h : n < 10) :
    natReprAux fuel n = [digitCharN n] := by
  cases fuel with
  | zero => omega
  | succ f => simp [natReprAux, h]

theorem natReprL_small (n : Nat) (h : n < 10) : natReprL n = [digitCharN n] :=
  natReprAux_small _ _ (Nat.succ_pos n) h

theorem natReprL_two (n : Nat) (h1 : 10 ≤ n) (h2 : n < 100) :
    natReprL n = [digitCharN (n / 10), digitCharN (n % 10)] := by
  unfold natReprL
  rw [show natReprAux (n + 1) n
      = (if n < 10 then [digitCharN n]
         else natReprAux n (n / 10) ++ [digitCharN (n % 10)]) from rfl]
  rw [if_neg (by omega)]
  rw [natReprAux_small n (n / 10) (by omega) (by omega)]
  rfl

theorem pad2L_small (n : Nat) (h : n < 10) : pad2L n = ['0', digitCharN n] := by
  unfold pad2L
  rw [if_pos h, natReprL_small n h]

theorem pad2L_length (n : Nat) (h : n < 100) : (pad2L n).length = 2 := by
  by_cases h10 : n < 10
  · rw [pad2L_small n h10]; rfl
  · unfold pad2L
    rw [if_neg h10, natReprL_two n (by omega) h]
    rfl

/-- C4 (counterexample): the claim states the reply keeps the zero-padded
`HH:MM:SS` shape for every non-negative elapsed value; at 86400 seconds the
code switches to the Python timedelta day format instead. -/
theorem C4_counterexample :
    uptimeReply 86400 = "1 day, 0:00:00" ∧
    uptimeSpecFormat 86400 = "24:00:00" ∧
    uptimeReply 86400 ≠ uptimeSpecFormat 86400 := by decide

/-- C4 (amended): for elapsed times under one day the reply is exactly the
zero-padded `HH:MM:SS` rendering (so 3661 seconds gives `01:01:01`); at one
day and beyond the reply switches to the `D day(s), H:MM:SS` timedelta
format. -/
theorem C4_uptime_daily (s : Nat) (hs : s < 86400) :
    uptimeReply s = uptimeSpecFormat s := by
  have hdays : s / 86400 = 0 := Nat.div_eq_of_lt hs
  have hrem : s % 86400 = s := Nat.mod_eq_of_lt hs
  have hh : s / 60 / 60 < 24 := by omega
  have hm : s / 60 % 60 < 60 := by omega
  have hsec : s % 60 < 60 := by omega
  have hdiv : s / 60 / 60 = s / 3600 := by omega
  unfold uptimeReply padZeroLeft8 timedeltaStr uptimeSpecFormat
  apply congrArg String.mk
  show List.replicate (8 - (timedeltaL s).length) '0' ++ timedeltaL s = uptimeSpecL s
  unfold timedeltaL uptimeSpecL
  rw [hrem, hdays]
  simp only [beq_self_eq_true, if_pos, ← hdiv]
  by_cases h10 : s / 60 / 60 < 10
  · rw [natReprL_small _ h10]
    have hlen : ([digitCharN (s / 60 / 60)] ++
        ':' :: (pad2L (s / 60 % 60) ++ ':' :: pad2L (s % 60))).length = 7 := by
      simp [pad2L_length (s / 60 % 60) (by omega), pad2L_length (s % 60) (by omega)]
    rw [hlen]
    rw [pad2L_small _ h10]
    rfl
  · rw [natReprL_two _ (by omega) (by omega)]
    have hlen : ([digitCharN (s / 60 / 60 / 10), digitCharN (s / 60 / 60 % 10)] ++
        ':' :: (pad2L (s / 60 % 60) ++ ':' :: pad2L (s % 60))).length = 8 := by
      simp [pad2L_length (s / 60 % 60) (by omega), pad2L_length (s % 60) (by omega)]
    rw [hlen]
    have hp : pad2L (s / 60 / 60) = natReprL (s / 60 / 60) := by
      unfold pad2L; rw [if_neg h10]
    rw [hp, natReprL_two _ (by omega) (by omega)]
    rfl

theorem C4_witness :
    3661 < 86400 ∧ uptimeReply 3661 = uptimeSpecFormat 3661 ∧
    uptimeReply 3661 = "01:01:01" :=
  ⟨by decide, C4_uptime_daily 3661 (by decide), by decide⟩

/-! ## The round lifecycle engine

State is the in-memory engine state (`self._attempts`,
`self._current_question`).  External collaborators — the database, the
scheduler clock, the tabulate renderer and the injected callbacks — are
fields of an environment record, and every outward action (database write,
callback invocation) is recorded as an `Effect` in order. -/

/-- Opaque stand-in for the chat-platform message payload. -/
abbrev Payload := Nat

structure Question where
  qid : Nat
  answer : String
deriving DecidableEq

/-- One aggregated score row as returned by `get_timeframe_scores`. -/
structure ScoreRow where
  uid : String
  rank : Nat
  name : String
  score : Int
  correct : Nat
deriving DecidableEq

/-- The engine configuration plus the external collaborators of this call:
the next question the database draws, the first winner-stats row, the
per-window score rows, the injected callbacks and the clock. -/
structure Env where
  adminUid : Option String
  minMatchingCharacters : Int
  newQuestion : Question
  stats : Option ScoreRow
  getScores : Option Nat → List ScoreRow
  displayName : String → String
  preFormat : String → String
  renderTable : List ScoreRow → String
  dateStr : Nat → String
  now : Nat
  starttime : Nat

structure EngineState where
  attempts : List String
  current_question : Option Question
deriving DecidableEq

/-- Outward actions of the engine, in issue order. -/
inductive Effect
  | dbAddUser (uid : String)
  | dbPlayerAttempt (uid : String) (attempts : Nat) (correct : Bool)
  | dbUpdateRound (winner : Option String)
  | statsLookup (uid : String)
  | dbCreateRound (qid : Nat)
  | postQuestion (winning_user : Option ScoreRow) (winning_answer : Option String)
      (q : Question)
  | reply (text : String) (payload : Option Payload)
  | message (text : String)
  | correctCallback
  | exitProcess
deriving DecidableEq

/-- Embeds `_new_question` followed by `_create_question_round`: remember the
old answer, reset the attempts, draw and persist the new round, post the
question payload. -/
def new_question (env : Env) (st : EngineState) (winning_user : Option ScoreRow) :
    EngineState × List Effect :=
  (⟨[], some env.newQuestion⟩,
   [Effect.dbCreateRound env.newQuestion.qid,
    Effect.postQuestion winning_user (st.current_question.map Question.answer)
      env.newQuestion])

/-- Embeds `_complete_question_round`.  Python iterates `set(self._attempts)`
(order unspecified; embedded as `List.dedup`), upserts each attempting user,
tags the round with the winner, performs the winner-stats lookup only for a
winner, then starts the next round. -/
def complete_question_round (env : Env) (st : EngineState)
    (winning_uid : Option String) : EngineState × List Effect :=
  ((new_question env st (if winning_uid.isSome then env.stats else Option.none)).1,
   (st.attempts.dedup.flatMap fun u =>
      [Effect.dbAddUser u,
       Effect.dbPlayerAttempt u (st.attempts.count u) (winning_uid == some u)])
    ++ [Effect.dbUpdateRound winning_uid]
    ++ (match winning_uid with
        | Option.some u => [Effect.statsLookup u]
        | Option.none => [])
    ++ (new_question env st (if winning_uid.isSome then env.stats else Option.none)).2)

/-- Embeds `_attempt_answer`: record the attempt, and on a match fire the
callback and complete the round crediting the attempting uid.  (With no
current question the source raises; no claim exercises that path.) -/
def attempt_answer (env : Env) (st : EngineState) (uid answer : String)
    (hasCallback : Bool) : EngineState × List Effect :=
  let st1 : EngineState := ⟨st.attempts ++ [uid], st.current_question⟩
  match st1.current_question with
  | Option.none => (st1, [])
  | Option.some q =>
    if do_check_answer answer q.answer env.minMatchingCharacters then
      let done := complete_question_round env st1 (some uid)
      (done.1, (if hasCallback then [Effect.correctCallback] else []) ++ done.2)
    else (st1, [])

/-- The scoreboard title of `_show_scores`; the local-midnight date rendering
is the external `dateStr` collaborator. -/
def scoreboardTitle (env : Env) (days_ago : Option Nat) : String :=
  match days_ago with
  | Option.none => "Alltime Scores"
  | Option.some d => "Scoreboard for " ++ env.dateStr d

/-- The text block `_show_scores` builds: title, a line of equal signs of the
same length, then the rendered table. -/
def scoreboardText (env : Env) (days_ago : Option Nat) (scores2 : List ScoreRow) :
    String :=
  scoreboardTitle env days_ago ++ "\n"
    ++ String.mk (List.replicate (scoreboardTitle env days_ago).length '=') ++ "\n"
    ++ env.renderTable scores2

/-- Embeds `_show_scores`: suppress an empty window when asked, resolve
display names truncated to 32 characters, then reply when a message payload
was given and post a plain message otherwise. -/
def show_scores (env : Env) (days_ago : Option Nat) (suppress_no_scores : Bool)
    (message_payload : Option Payload) : List Effect :=
  let scores := env.getScores days_ago
  if suppress_no_scores && scores.isEmpty then []
  else
    let scores2 := scores.map fun r =>
      { r with name := strTakeChars (env.displayName r.uid) 32 }
    let formatted := env.preFormat (scoreboardText env days_ago scores2)
    match message_payload with
    | Option.some _ => [Effect.reply formatted message_payload]
    | Option.none => [Effect.message formatted]

abbrev Handler := Env → EngineState → String → Option Payload → EngineState × List Effect

/-- Embeds `_command_exit`: admin only. -/
def command_exit : Handler := fun env st uid payload =>
  if env.adminUid == some uid then
    (st, [Effect.reply "ok bye" payload, Effect.exitProcess])
  else (st, [])

/-- Embeds `_command_uptime`. -/
def command_uptime : Handler := fun env st _uid payload =>
  (st, [Effect.reply (uptimeReply (env.now - env.starttime)) payload])

/-- Embeds the `new` / `trivia new` handler lambda. -/
def command_new : Handler := fun env st _uid _payload =>
  complete_question_round env st Option.none

def command_alltime : Handler := fun env st _uid _payload =>
  (st, show_scores env Option.none false Option.none)

def command_yesterday : Handler := fun env st _uid _payload =>
  (st, show_scores env (some 1) false Option.none)

def command_today : Handler := fun env st _uid _payload =>
  (st, show_scores env (some 0) false Option.none)

/-- The alias and help columns of the `_commands` table (split out so the
help command can render them without self reference). -/
def commandMeta : List (List String × Option String) :=
  [(["exit"], Option.none),
   (["uptime"], Option.none),
   (["new", "trivia new"], some "Skip to the next question"),
   (["alltime", "score", "scores"], some "Scores for all time"),
   (["yesterday"], some "Scores for yesterday"),
   (["today"], some "Scores for today"),
   (["help"], some "Show this help info")]

/-- Embeds the `{:<20}` left justification of the help template. -/
def padRight20 (s : String) : String :=
  s ++ String.mk (List.replicate (20 - s.length) ' ')

/-- Embeds `_command_help`: the prefixed, column-aligned lines for every
command that carries help text, run through the pre-format hook. -/
def command_help : Handler := fun env st _uid payload =>
  let lines := commandMeta.filterMap fun e =>
    match e.2 with
    | Option.none => Option.none
    | Option.some h => some ("!" ++ padRight20 (e.1.headD "") ++ h)
  (st, [Effect.reply (env.preFormat (String.intercalate "\n" lines)) payload])

def commandHandlers : List Handler :=
  [command_exit, command_uptime, command_new, command_alltime,
   command_yesterday, command_today, command_help]

/-- Embeds `_handle_command`: first table entry whose alias list contains the
text wins; no match falls through silently. -/
def handle_command (env : Env) (st : EngineState) (uid text : String)
    (payload : Option Payload) : EngineState × List Effect :=
  match (commandMeta.zip commandHandlers).find? (fun e => e.1.1.contains text) with
  | Option.some e => e.2 env st uid payload
  | Option.none => (st, [])

/-- Embeds `handle_message` (body under the engine lock): command prefix
dispatch, else an answer attempt. -/
def handle_message (env : Env) (st : EngineState) (uid text : String)
    (payload : Option Payload) (hasCallback : Bool) : EngineState × List Effect :=
  if strStarts text "!" then handle_command env st uid (strDropChars text 1) payload
  else attempt_answer env st uid text hasCallback

/-! ## Effect classifiers and filter lemmas -/

def isPostQuestion : Effect → Bool
  | Effect.postQuestion _ _ _ => true
  | _ => false

def isStatsLookup : Effect → Bool
  | Effect.statsLookup _ => true
  | _ => false

def isReply : Effect → Bool
  | Effect.reply _ _ => true
  | _ => false

def isPlayerAttemptOf (uid0 : String) : Effect → Bool
  | Effect.dbPlayerAttempt u _ _ => u == uid0
  | _ => false

theorem filter_flatMap_pair_nil {β : Type} (p : Effect → Bool) (l : List β)
    (f g : β → Effect) (hf : ∀ b, p (f b) = false) (hg : ∀ b, p (g b) = false) :
    (l.flatMap fun b => [f b, g b]).filter p = [] := by
  induction l with
  | nil => rfl
  | cons b t ih =>
    rw [List.flatMap_cons, List.filter_append, ih]
    simp [List.filter_cons, hf b, hg b]

theorem filter_stats_match (p : Effect → Bool) (w : Option String)
    (hp : ∀ u, p (Effect.statsLookup u) = false) :
    ((match w with
      | Option.some u => [Effect.statsLookup u]
      | Option.none => []).filter p) = [] := by
  cases w with
  | none => rfl
  | some u => simp [List.filter_cons, hp u]

theorem filter_attempt_flatMap (attempts : List String) (w : Option String)
    (uid0 : String) :
    ∀ l : List String, l.Nodup →
    ((l.flatMap fun u =>
        [Effect.dbAddUser u,
         Effect.dbPlayerAttempt u (attempts.count u) (w == some u)]).filter
      (isPlayerAttemptOf uid0))
      = if uid0 ∈ l
        then [Effect.dbPlayerAttempt uid0 (attempts.count uid0) (w == some uid0)]
        else [] := by
  intro l
  induction l with
  | nil => intro _; simp
  | cons a t ih =>
    intro hnd
    have hnd2 := List.nodup_cons.mp hnd
    rw [List.flatMap_cons, List.filter_append, ih hnd2.2]
    by_cases ha : a = uid0
    · subst ha
      have hnotmem : a ∉ t := hnd2.1
      simp [List.filter_cons, isPlayerAttemptOf, hnotmem]
    · have hne : ¬(uid0 = a) := fun h => ha h.symm
      simp [List.filter_cons, isPlayerAttemptOf, ha, List.mem_cons, hne]

/-! ## Claims about round completion and the command dispatcher -/

/-- C7: on round completion with any winning uid (or none), each distinct
attempting user receives exactly one player-attempt upsert, carrying the
attempt count with repeats and a correctness flag true iff the user is the
winner; users who never attempted receive none. -/
theorem C7_round_completion_upserts (env : Env) (st : EngineState)
    (winner : Option String) (uid0 : String) :
    (complete_question_round env st winner).2.filter (isPlayerAttemptOf uid0)
      = if uid0 ∈ st.attempts
        then [Effect.dbPlayerAttempt uid0 (st.attempts.count uid0)
                (winner == some uid0)]
        else [] := by
  simp only [complete_question_round, new_question]
  rw [List.filter_append, List.filter_append, List.filter_append]
  rw [filter_attempt_flatMap st.attempts winner uid0 st.attempts.dedup
    (List.nodup_dedup _)]
  rw [filter_stats_match _ winner (fun _ => rfl)]
  simp [List.filter_cons, isPlayerAttemptOf, List.mem_dedup]

/-- A concrete question, environment and engine state used to instantiate the
engine theorems. -/
def q0 : Question := ⟨7, "paris"⟩

def env0 : Env :=
  { adminUid := Option.none
    minMatchingCharacters := 5
    newQuestion := ⟨8, "london"⟩
    stats := Option.none
    getScores := fun _ => []
    displayName := fun u => u
    preFormat := fun t => t
    renderTable := fun _ => ""
    dateStr := fun _ => "today"
    now := 100
    starttime := 0 }

def st0 : EngineState := ⟨["u1", "u1", "u2"], some q0⟩

theorem C7_witness :
    (complete_question_round env0 st0 (some "u1")).2.filter (isPlayerAttemptOf "u1")
      = if "u1" ∈ st0.attempts
        then [Effect.dbPlayerAttempt "u1" (st0.attempts.count "u1")
                ((some "u1" : Option String) == some "u1")]
        else [] :=
  C7_round_completion_upserts env0 st0 (some "u1") "u1"

/-- C6: dispatching `new` (or `trivia new`) while a round is current completes
the round with winner none (round tagged with no winner, no winner-stats
lookup) and posts exactly one new question with no winning user attached. -/
theorem C6_new_command (env : Env) (st : EngineState) (uid text : String)
    (payload : Option Payload) (q : Question)
    (hq : st.current_question = some q)
    (ht : text = "new" ∨ text = "trivia new") :
    (handle_command env st uid text payload).2.filter isPostQuestion
        = [Effect.postQuestion Option.none (some q.answer) env.newQuestion] ∧
    Effect.dbUpdateRound Option.none ∈ (handle_command env st uid text payload).2 ∧
    (handle_command env st uid text payload).2.filter isStatsLookup = [] := by
  have hc : handle_command env st uid text payload
      = complete_question_round env st Option.none := by
    rcases ht with h | h <;> subst h <;> rfl
  rw [hc]
  have heff : (complete_question_round env st Option.none).2
      = (st.attempts.dedup.flatMap fun u =>
          [Effect.dbAddUser u,
           Effect.dbPlayerAttempt u (st.attempts.count u)
             ((Option.none : Option String) == some u)])
        ++ [Effect.dbUpdateRound Option.none]
        ++ []
        ++ [Effect.dbCreateRound env.newQuestion.qid,
            Effect.postQuestion Option.none (st.current_question.map Question.answer)
              env.newQuestion] := rfl
  rw [heff]
  refine ⟨?_, ?_, ?_⟩
  · rw [List.filter_append, List.filter_append, List.filter_append]
    rw [filter_flatMap_pair_nil isPostQuestion st.attempts.dedup
      (fun u => Effect.dbAddUser u)
      (fun u => Effect.dbPlayerAttempt u (st.attempts.count u)
        ((Option.none : Option String) == some u))
      (fun _ => rfl) (fun _ => rfl)]
    simp [List.filter_cons, isPostQuestion, hq]
  · simp
  · rw [List.filter_append, List.filter_append, List.filter_append]
    rw [filter_flatMap_pair_nil isStatsLookup st.attempts.dedup
      (fun u => Effect.dbAddUser u)
      (fun u => Effect.dbPlayerAttempt u (st.attempts.count u)
        ((Option.none : Option String) == some u))
      (fun _ => rfl) (fun _ => rfl)]
    simp [List.filter_cons, isStatsLookup]

theorem C6_witness :
    (handle_command env0 st0 "u1" "new" Option.none).2.filter isPostQuestion
        = [Effect.postQuestion Option.none (some q0.answer) env0.newQuestion] ∧
    Effect.dbUpdateRound Option.none ∈ (handle_command env0 st0 "u1" "new" Option.none).2 ∧
    (handle_command env0 st0 "u1" "new" Option.none).2.filter isStatsLookup = [] :=
  C6_new_command env0 st0 "u1" "new" Option.none q0 rfl (Or.inl rfl)

/-- C5 (counterexample): the claim states the command path posts the empty
table through the reply callback; the `today` handler passes no message
payload, so the code posts it through the plain message callback and no reply
effect is issued at all. -/
theorem C5_counterexample :
    (handle_command env0 st0 "u1" "today" Option.none).2.filter isReply = [] ∧
    (handle_command env0 st0 "u1" "today" Option.none).2 ≠ [] := by decide

/-- C5 (amended): over an empty window the `today` command still posts the
empty table, but through the post-message callback (its handler passes no
message payload), while a scheduled trigger (suppress flag set) posts nothing
at all. -/
theorem C5_empty_scoreboard (env : Env) (st : EngineState) (uid : String)
    (payload : Option Payload) (hempty : env.getScores (some 0) = []) :
    (handle_command env st uid "today" payload).2
        = [Effect.message (env.preFormat (scoreboardText env (some 0) []))] ∧
    show_scores env (some 0) true Option.none = [] := by
  have hc : handle_command env st uid "today" payload
      = (st, show_scores env (some 0) false Option.none) := rfl
  rw [hc]
  constructor
  · simp [show_scores, hempty]
  · simp [show_scores, hempty]

theorem C5_witness :
    (handle_command env0 st0 "u1" "today" Option.none).2
        = [Effect.message (env0.preFormat (scoreboardText env0 (some 0) []))] ∧
    show_scores env0 (some 0) true Option.none = [] :=
  C5_empty_scoreboard env0 st0 "u1" Option.none rfl

end TriviaCore
